import Mathlib

/-!
Verification of the two Metal demo programs in this repository:
the compute program (src/metal/compute_add/src/main.rs) which adds two
float arrays on the GPU and verifies the result on the CPU, and the
render program (src/metal/raster_triangle/src/main.rs) which draws a
single triangle each frame inside a window event loop.

The embedding is shallow: the orchestration logic of each program is
translated into pure Lean functions over explicit state, and the calls
into the Metal API are recorded as events in a trace so that ordering
and cardinality properties can be stated.  Since 32-bit floating point
arithmetic is performed by the GPU and the host FPU, float values and
their operations are kept abstract: the verifier is parametrised over a
carrier type and its add, sub, abs and comparison operations, so every
theorem about the scan holds for the true IEEE semantics as an instance.
-/

namespace GpuMisc

/-! ## Compute program: threadgroup sizing (main.rs lines 61 to 70) -/

/-- The threadgroup width computed in main:
`let width = if max_threads > array_length { array_length } else { max_threads }`. -/
def threadgroupWidth (max_threads array_length : Nat) : Nat :=
  if max_threads > array_length then array_length else max_threads

/-- The constant `array_length = 1024` from main. -/
def array_length : Nat := 1024

/-! ## Compute program: abstract 32-bit float operations

The verifier recomputes `a[i] + b[i]` in f32 and compares
`(result - expected).abs() > 0.000001`.  We keep the float type and its
operations abstract so the control-flow theorems hold for the actual
IEEE-754 single-precision semantics. -/

/-- The float operations the compute program uses: addition, subtraction,
absolute value, a strict greater-than test, and the tolerance constant
(`0.000001` in the source). -/
structure FloatOps (F : Type) where
  add : F → F → F
  sub : F → F → F
  abs : F → F
  gt : F → F → Bool
  tol : F

/-- A simple executable instantiation of the float operations on natural
numbers (truncated subtraction, identity absolute value, zero
tolerance), used to run the model on concrete inputs. -/
def natOps : FloatOps Nat :=
  { add := (· + ·)
    sub := fun x y => x - y
    abs := id
    gt := fun x y => decide (y < x)
    tol := 0 }

/-- Outcome of verify_results: either the success message, or the first
mismatch together with the index, the GPU value and the CPU-recomputed
expected value printed by the error line. -/
inductive VerifyResult (F : Type) where
  | success : VerifyResult F
  | mismatch (i : Nat) (actual expected : F) : VerifyResult F
  deriving DecidableEq, Repr

/-- Events of the compute program recorded as a trace: the encoder calls,
submission, the blocking wait, and each CPU read of the output buffer
performed by the verifier. -/
inductive ComputeEvent where
  | setComputePipelineState : ComputeEvent
  | setBuffer (slot : Nat) : ComputeEvent
  | dispatchThreads (gridW gridH gridD tgW tgH tgD : Nat) : ComputeEvent
  | endEncoding : ComputeEvent
  | commit : ComputeEvent
  | waitUntilCompleted : ComputeEvent
  | readOutput (i : Nat) : ComputeEvent
  deriving DecidableEq, Repr

/-- The scan loop of verify_results (main.rs lines 100 to 112).  `i` is the
current index, the second argument is the number of elements still to
examine.  Each examined index reads `a[i]`, `b[i]`, `result[i]`; the read
of the output buffer is recorded as an event.  On the first index whose
absolute error exceeds the tolerance the loop reports the index, the
actual value and the expected value and breaks; otherwise it continues. -/
def verifyAux {F : Type} (ops : FloatOps F) (a b r : Nat → F) :
    Nat → Nat → VerifyResult F × List ComputeEvent
  | _, 0 => (VerifyResult.success, [])
  | i, k + 1 =>
    let a_val := a i
    let b_val := b i
    let result_val := r i
    let expected := ops.add a_val b_val
    if ops.gt (ops.abs (ops.sub result_val expected)) ops.tol then
      (VerifyResult.mismatch i result_val expected, [ComputeEvent.readOutput i])
    else
      let rest := verifyAux ops a b r (i + 1) k
      (rest.1, ComputeEvent.readOutput i :: rest.2)

/-- verify_results (main.rs lines 92 to 118): scans indices 0 to length-1
in order, returning the outcome and the trace of output-buffer reads. -/
def verify_results {F : Type} (ops : FloatOps F) (a b r : Nat → F) (length : Nat) :
    VerifyResult F × List ComputeEvent :=
  verifyAux ops a b r 0 length

/-- The mismatch test of the source at index `i`:
`(result_val - expected).abs() > 0.000001`. -/
def mismatchAt {F : Type} (ops : FloatOps F) (a b r : Nat → F) (i : Nat) : Bool :=
  ops.gt (ops.abs (ops.sub (r i) (ops.add (a i) (b i)))) ops.tol

/-- Result of one run of the compute program after successful setup:
the recorded API trace, the verifier outcome, and the process exit
status (the Rust main returns unit, so the process exits with the
normal-completion status regardless of the verifier outcome). -/
structure ComputeRun (F : Type) where
  trace : List ComputeEvent
  verifyResult : VerifyResult F
  exitCode : Nat
  deriving Repr

/-- The compute program main (main.rs lines 6 to 80) after device, queue,
buffer and pipeline setup: encode the pipeline and the three buffer
bindings, dispatch a 1-D grid of `length` threads with the computed
threadgroup width, end encoding, commit once, block on
wait_until_completed, then run verify_results over the shared buffers.
`r` is the contents of the result buffer at readback time. -/
def computeMain {F : Type} (ops : FloatOps F) (a b r : Nat → F)
    (length max_threads : Nat) : ComputeRun F :=
  let width := threadgroupWidth max_threads length
  let verified := verify_results ops a b r length
  { trace :=
      [ComputeEvent.setComputePipelineState,
       ComputeEvent.setBuffer 0,
       ComputeEvent.setBuffer 1,
       ComputeEvent.setBuffer 2,
       ComputeEvent.dispatchThreads length 1 1 width 1 1,
       ComputeEvent.endEncoding,
       ComputeEvent.commit,
       ComputeEvent.waitUntilCompleted] ++ verified.2
    verifyResult := verified.1
    exitCode := 0 }

/-! ## Render program: data model (raster_triangle/src/main.rs)

Vertex positions and colors are f32 values fixed in the source text, so
we represent them by exact rationals; drawable sizes are likewise carried
as rationals (the program only copies them around, it never computes with
them). -/

/-- The vertex record AAPLVertex: a 2D position and an RGBA color. -/
structure AAPLVertex where
  position : ℚ × ℚ
  color : ℚ × ℚ × ℚ × ℚ
  deriving DecidableEq, Repr

/-- The three statically defined vertices written into the vertex buffer
at startup (main.rs lines 103 to 116). -/
def triangle_vertices : List AAPLVertex :=
  [{ position := (250, -250), color := (1, 0, 0, 1) },
   { position := (-250, -250), color := (0, 1, 0, 1) },
   { position := (0, 250), color := (0, 0, 1, 1) }]

/-- Buffer index constant for the vertex buffer (slot 0). -/
def AAPL_VERTEX_INPUT_INDEX_VERTICES : Nat := 0

/-- Buffer index constant for the viewport size buffer (slot 1). -/
def AAPL_VERTEX_INPUT_INDEX_VIEWPORT_SIZE : Nat := 1

/-- A drawable surface image together with the drawable size of the layer
at the moment it was acquired. -/
structure Drawable where
  width : ℚ
  height : ℚ
  deriving DecidableEq, Repr

/-- Which of the two buffers a set_vertex_buffer call binds. -/
inductive BufRef where
  | vertexBuf : BufRef
  | viewportBuf : BufRef
  deriving DecidableEq, Repr

/-- Primitive type of a draw call. -/
inductive PrimitiveType where
  | triangle : PrimitiveType
  deriving DecidableEq, Repr

/-- Events of one frame of the render program, in the order the source
emits them: the host-side write into the viewport buffer, then the
render-pass encoding calls, then presentation and submission. -/
inductive RenderEvent where
  | viewportBufferWrite (size : ℚ × ℚ) : RenderEvent
  | beginRenderPass (clearR clearG clearB clearA : ℚ) : RenderEvent
  | setViewport (originX originY width height znear zfar : ℚ) : RenderEvent
  | setRenderPipelineState (pipeline : Nat) : RenderEvent
  | setVertexBuffer (slot : Nat) (buf : BufRef) : RenderEvent
  | drawPrimitives (prim : PrimitiveType) (vertexStart vertexCount : Nat) : RenderEvent
  | endEncoding : RenderEvent
  | presentDrawable : RenderEvent
  | commitCmd : RenderEvent
  deriving DecidableEq, Repr

/-- The mutable-relevant parts of MetalState: the (opaque) compiled
pipeline object, the contents of the vertex buffer, the two floats of
the viewport buffer, and the window state tracked as the number of
redraw requests issued on it. -/
structure MetalState where
  pipeline_state : Nat
  vertex_buffer : List AAPLVertex
  viewport_buffer : ℚ × ℚ
  windowRedrawRequests : Nat
  deriving DecidableEq, Repr

/-- MetalState::new (main.rs lines 40 to 138): compiles the pipeline,
copies the three static vertices into the vertex buffer, and allocates
the viewport buffer without initializing it.  `pipeline` is the opaque
compiled pipeline object and `uninit` the indeterminate initial contents
of the viewport buffer. -/
def MetalState.new (pipeline : Nat) (uninit : ℚ × ℚ) : MetalState :=
  { pipeline_state := pipeline
    vertex_buffer := triangle_vertices
    viewport_buffer := uninit
    windowRedrawRequests := 0 }

/-- MetalState::update_viewport_buffer (main.rs lines 140 to 149):
copies the two floats of `view_size` into the viewport buffer. -/
def MetalState.update_viewport_buffer (s : MetalState) (view_size : ℚ × ℚ) : MetalState :=
  { s with viewport_buffer := view_size }

/-- MetalState::render (main.rs lines 151 to 206).  If no drawable is
available, nothing at all happens.  Otherwise the drawable size is read,
the viewport buffer is overwritten with it, and one render pass is
encoded: clear to the fixed background color, set the viewport rectangle
to the drawable size, bind the pipeline, bind the vertex buffer at slot 0
and the viewport buffer at slot 1, draw 3 vertices as one triangle
starting at vertex 0, end encoding, present, commit.  Returns the updated
state and the trace of this frame. -/
def MetalState.render (s : MetalState) (drawable : Option Drawable) :
    MetalState × List RenderEvent :=
  match drawable with
  | none => (s, [])
  | some d =>
    let view_size : ℚ × ℚ := (d.width, d.height)
    let s1 := s.update_viewport_buffer view_size
    (s1,
     [RenderEvent.viewportBufferWrite view_size,
      RenderEvent.beginRenderPass 0 0.5 0.7 1,
      RenderEvent.setViewport 0 0 view_size.1 view_size.2 0 1,
      RenderEvent.setRenderPipelineState s.pipeline_state,
      RenderEvent.setVertexBuffer AAPL_VERTEX_INPUT_INDEX_VERTICES BufRef.vertexBuf,
      RenderEvent.setVertexBuffer AAPL_VERTEX_INPUT_INDEX_VIEWPORT_SIZE BufRef.viewportBuf,
      RenderEvent.drawPrimitives PrimitiveType.triangle 0 3,
      RenderEvent.endEncoding,
      RenderEvent.presentDrawable,
      RenderEvent.commitCmd])

/-! ## Render program: event loop (App and window_event) -/

/-- Physical key of a keyboard input event, as matched by the handler:
either Escape or any other key. -/
inductive Key where
  | escape : Key
  | otherKey : Key
  deriving DecidableEq, Repr

/-- Window events delivered by the event loop to window_event. -/
inductive WEvent where
  | closeRequested : WEvent
  | keyboardInput (key : Key) : WEvent
  | redrawRequested : WEvent
  | otherEvent : WEvent
  deriving DecidableEq, Repr

/-- The App struct: the optional window and the optional MetalState,
both None until resumed runs. -/
structure App where
  window : Option Nat
  metal_state : Option MetalState
  deriving DecidableEq, Repr

/-- App::window_event (main.rs lines 240 to 259).  `exited` is the
termination flag of the event loop (set by ActiveEventLoop::exit).  If
the Metal state is not yet initialized the handler does nothing.
Otherwise CloseRequested and an Escape keyboard input call exit;
RedrawRequested renders a frame (with whatever drawable is available)
and requests another redraw; every other event does nothing.  Returns
the new app state, the new termination flag, and the render trace of
this invocation. -/
def App.window_event (app : App) (exited : Bool) (e : WEvent)
    (drawable : Option Drawable) : App × Bool × List RenderEvent :=
  match app.metal_state with
  | none => (app, exited, [])
  | some ms =>
    match e with
    | WEvent.closeRequested => (app, true, [])
    | WEvent.keyboardInput Key.escape => (app, true, [])
    | WEvent.keyboardInput Key.otherKey => (app, exited, [])
    | WEvent.redrawRequested =>
      let rendered := ms.render drawable
      let ms2 := { rendered.1 with
                   windowRedrawRequests := rendered.1.windowRedrawRequests + 1 }
      ({ app with metal_state := some ms2 }, exited, rendered.2)
    | WEvent.otherEvent => (app, exited, [])

/-- The host event loop driver: delivers events one at a time, and once
the termination flag is set delivers no further events (the winit loop
returns from run_app after exit is requested). -/
def runEvents (app : App) (exited : Bool) :
    List (WEvent × Option Drawable) → (App × Bool) × List RenderEvent
  | [] => ((app, exited), [])
  | (e, d) :: rest =>
    if exited then ((app, exited), [])
    else
      let step := app.window_event exited e d
      let tail := runEvents step.1 step.2.1 rest
      (tail.1, step.2.2 ++ tail.2)

/-! ## Render program: byte-level model of the viewport update (C10) -/

/-- Byte size of an f32. -/
def size_of_f32 : Nat := 4

/-- Byte length of the viewport buffer allocation:
`size_of::<[f32; 2]>()` (main.rs lines 124 to 127). -/
def viewport_buffer_byte_len : Nat := 2 * size_of_f32

/-- The effect of `std::ptr::copy_nonoverlapping(src, dst, count)` on an
f32-cell memory: cells `0` to `count - 1` receive the source values,
every other cell is untouched. -/
def copy_nonoverlapping (src : List ℚ) (dst : Nat → ℚ) (count : Nat) : Nat → ℚ :=
  fun i => if i < count then src.getD i (dst i) else dst i

/-- The memory effect of update_viewport_buffer: copy the two floats of
`view_size` to the start of the viewport buffer mapping
(`copy_nonoverlapping(view_size.as_ptr(), contents as *mut f32, view_size.len())`). -/
def update_viewport_buffer_mem (mem : Nat → ℚ) (view_size : ℚ × ℚ) : Nat → ℚ :=
  copy_nonoverlapping [view_size.1, view_size.2] mem 2

/-! ## Theorems -/

/-- C1: the threadgroup width passed to dispatch_threads is the minimum
of the pipeline-reported maximum threads per threadgroup and the element
count: for every maximum and every element count N with N at least 1,
the computed width never exceeds the reported maximum and never exceeds
N. -/
theorem C1_threadgroup_width_bounded (max_threads n : Nat) (h : 1 ≤ n) :
    threadgroupWidth max_threads n ≤ max_threads ∧ threadgroupWidth max_threads n ≤ n := by
  unfold threadgroupWidth
  split <;> omega

/-- Witness for C1 at the concrete element count 1024 used by the
program and a reported maximum of 256. -/
theorem C1_threadgroup_width_bounded_witness :
    threadgroupWidth 256 1024 ≤ 256 ∧ threadgroupWidth 256 1024 ≤ 1024 :=
  C1_threadgroup_width_bounded 256 1024 (by decide)

/-- C3: invoking render when no drawable surface image is available
performs no action at all: pipeline state, vertex buffer, viewport
buffer and window state are unchanged, and no command is recorded (in
particular no command buffer is created or submitted); the function
returns normally. -/
theorem C3_render_without_drawable_is_noop (s : MetalState) :
    (s.render none).1.pipeline_state = s.pipeline_state ∧
    (s.render none).1.vertex_buffer = s.vertex_buffer ∧
    (s.render none).1.viewport_buffer = s.viewport_buffer ∧
    (s.render none).1.windowRedrawRequests = s.windowRedrawRequests ∧
    (s.render none).2 = [] := by
  refine ⟨?_, ?_, ?_, ?_, ?_⟩ <;> simp [MetalState.render]

/-- C4: in every rendered frame, the viewport buffer is overwritten with
the current drawable size (trace position 0) strictly before the draw
command of that frame is encoded (trace position 6), the state read at
draw-encoding time holds exactly that size, and the same size is used
for the viewport rectangle of the frame. -/
theorem C4_viewport_written_before_draw (s : MetalState) (d : Drawable) :
    ∃ i j, i < j ∧
      ((s.render (some d)).2).get? i =
        some (RenderEvent.viewportBufferWrite (d.width, d.height)) ∧
      ((s.render (some d)).2).get? j =
        some (RenderEvent.drawPrimitives PrimitiveType.triangle 0 3) ∧
      (s.render (some d)).1.viewport_buffer = (d.width, d.height) ∧
      ((s.render (some d)).2).get? 2 =
        some (RenderEvent.setViewport 0 0 d.width d.height 0 1) := by
  refine ⟨0, 6, by omega, ?_, ?_, ?_, ?_⟩ <;>
    simp [MetalState.render, MetalState.update_viewport_buffer]

/-- C6: the process exit status of the compute program is the same
whether verification succeeds or fails: for any two result-buffer
contents (one of which may verify and the other mismatch), the exit
status is identical, namely the normal-completion status 0; the
verifier contributes only its printed line, never an abort. -/
theorem C6_exit_status_independent_of_verification {F : Type} (ops : FloatOps F)
    (a b r r2 : Nat → F) (n m : Nat) :
    (computeMain ops a b r n m).exitCode = (computeMain ops a b r2 n m).exitCode ∧
    (computeMain ops a b r n m).exitCode = 0 :=
  ⟨rfl, rfl⟩

/-- C9: a window event delivered while the Metal state is not yet
initialized does nothing: the app state is unchanged, the event loop is
not exited (even for close-requested or escape), and no rendering
occurs. -/
theorem C9_event_before_init_is_noop (app : App) (x : Bool) (e : WEvent)
    (d : Option Drawable) (h : app.metal_state = none) :
    app.window_event x e d = (app, x, []) := by
  unfold App.window_event
  rw [h]

/-- Witness for C9: the default app (metal state absent) ignores a
close-requested event and does not exit the loop. -/
theorem C9_event_before_init_is_noop_witness :
    App.window_event { window := none, metal_state := none } false
      WEvent.closeRequested none =
      ({ window := none, metal_state := none }, false, []) :=
  C9_event_before_init_is_noop { window := none, metal_state := none } false
    WEvent.closeRequested none rfl

/-- C10: the per-frame viewport update writes exactly the two f32 cells
at the start of the viewport buffer (8 bytes) and touches no other
cell, and the viewport buffer is allocated with exactly that byte
length, so the update stays within bounds. -/
theorem C10_viewport_update_in_bounds (mem : Nat → ℚ) (vs : ℚ × ℚ) :
    update_viewport_buffer_mem mem vs 0 = vs.1 ∧
    update_viewport_buffer_mem mem vs 1 = vs.2 ∧
    (∀ i, 2 ≤ i → update_viewport_buffer_mem mem vs i = mem i) ∧
    2 * size_of_f32 = viewport_buffer_byte_len ∧
    viewport_buffer_byte_len = 8 := by
  refine ⟨rfl, rfl, ?_, rfl, rfl⟩
  intro i hi
  unfold update_viewport_buffer_mem copy_nonoverlapping
  have : ¬ i < 2 := by omega
  simp [this]

/-- Witness for C10 at a concrete memory and size: cell 5 is untouched
by the update. -/
theorem C10_viewport_update_in_bounds_witness :
    update_viewport_buffer_mem (fun i => (i : ℚ)) (800, 600) 5 = (5 : ℚ) :=
  (C10_viewport_update_in_bounds (fun i => (i : ℚ)) (800, 600)).2.2.1 5 (by decide)

/-! ### Lemmas about the verifier scan -/

/-- One unfolding step of the scan, phrased through `mismatchAt`. -/
theorem verifyAux_succ_eq {F : Type} (ops : FloatOps F) (a b r : Nat → F) (i k : Nat) :
    verifyAux ops a b r i (k + 1) =
      if mismatchAt ops a b r i then
        (VerifyResult.mismatch i (r i) (ops.add (a i) (b i)), [ComputeEvent.readOutput i])
      else
        ((verifyAux ops a b r (i + 1) k).1,
         ComputeEvent.readOutput i :: (verifyAux ops a b r (i + 1) k).2) := rfl

/-- The scan starting at `i` over `k` elements succeeds exactly when no
examined index mismatches. -/
theorem verifyAux_success_iff {F : Type} (ops : FloatOps F) (a b r : Nat → F) :
    ∀ k i, (verifyAux ops a b r i k).1 = VerifyResult.success ↔
      ∀ j, i ≤ j → j < i + k → mismatchAt ops a b r j = false := by
  intro k
  induction k with
  | zero =>
    intro i
    constructor
    · intro _ j h1 h2
      omega
    · intro _
      rfl
  | succ k ih =>
    intro i
    rw [verifyAux_succ_eq]
    by_cases hc : mismatchAt ops a b r i = true
    · rw [if_pos hc]
      constructor
      · intro h
        cases h
      · intro h
        have := h i le_rfl (by omega)
        rw [hc] at this
        cases this
    · rw [if_neg hc]
      rw [Bool.not_eq_true] at hc
      rw [ih (i + 1)]
      constructor
      · intro h j h1 h2
        rcases Nat.eq_or_lt_of_le h1 with rfl | h3
        · exact hc
        · exact h j h3 (by omega)
      · intro h j h1 h2
        exact h j (by omega) (by omega)

/-- The scan starting at `i` over `k` elements reports the mismatch
`(m, act, exp)` exactly when `m` is the first examined index whose error
exceeds the tolerance, `act` is the GPU value at `m` and `exp` the
CPU-recomputed sum at `m`. -/
theorem verifyAux_mismatch_iff {F : Type} (ops : FloatOps F) (a b r : Nat → F)
    (m : Nat) (act exp : F) :
    ∀ k i, (verifyAux ops a b r i k).1 = VerifyResult.mismatch m act exp ↔
      (i ≤ m ∧ m < i + k ∧ mismatchAt ops a b r m = true ∧
       (∀ j, i ≤ j → j < m → mismatchAt ops a b r j = false) ∧
       act = r m ∧ exp = ops.add (a m) (b m)) := by
  intro k
  induction k with
  | zero =>
    intro i
    constructor
    · intro h
      cases h
    · rintro ⟨h1, h2, _⟩
      omega
  | succ k ih =>
    intro i
    rw [verifyAux_succ_eq]
    by_cases hc : mismatchAt ops a b r i = true
    · rw [if_pos hc]
      constructor
      · intro h
        injection h with h1 h2 h3
        subst h1
        exact ⟨le_rfl, by omega, hc,
          fun j hj1 hj2 => absurd (Nat.lt_of_le_of_lt hj1 hj2) (Nat.lt_irrefl i),
          h2.symm, h3.symm⟩
      · rintro ⟨h1, h2, h3, h4, h5, h6⟩
        have him : m = i := by
          by_contra hne
          have hlt : i < m := Nat.lt_of_le_of_ne h1 (Ne.symm hne)
          have := h4 i le_rfl hlt
          rw [hc] at this
          cases this
        subst him
        rw [h5, h6]
    · rw [if_neg hc]
      rw [Bool.not_eq_true] at hc
      rw [ih (i + 1)]
      constructor
      · rintro ⟨h1, h2, h3, h4, h5, h6⟩
        refine ⟨by omega, by omega, h3, ?_, h5, h6⟩
        intro j hj1 hj2
        rcases Nat.eq_or_lt_of_le hj1 with rfl | h
        · exact hc
        · exact h4 j h hj2
      · rintro ⟨h1, h2, h3, h4, h5, h6⟩
        have him : i ≠ m := by
          rintro rfl
          rw [hc] at h3
          cases h3
        exact ⟨by omega, by omega, h3, fun j hj1 hj2 => h4 j (by omega) hj2, h5, h6⟩

/-- Every event recorded by the scan is a read of the output buffer. -/
theorem verifyAux_reads_only {F : Type} (ops : FloatOps F) (a b r : Nat → F) :
    ∀ k i e, e ∈ (verifyAux ops a b r i k).2 → ∃ j, e = ComputeEvent.readOutput j := by
  intro k
  induction k with
  | zero =>
    intro i e h
    cases h
  | succ k ih =>
    intro i e h
    rw [verifyAux_succ_eq] at h
    by_cases hc : mismatchAt ops a b r i = true
    · rw [if_pos hc] at h
      simp only [List.mem_singleton] at h
      exact ⟨i, h⟩
    · rw [if_neg hc] at h
      simp only [List.mem_cons] at h
      rcases h with rfl | h
      · exact ⟨i, rfl⟩
      · exact ih (i + 1) e h

/-- When the scan reports a mismatch at `m`, no index past `m` is
examined: every recorded read is of an index at most `m`. -/
theorem verifyAux_stop {F : Type} (ops : FloatOps F) (a b r : Nat → F) :
    ∀ k i m act exp, (verifyAux ops a b r i k).1 = VerifyResult.mismatch m act exp →
      ∀ j, ComputeEvent.readOutput j ∈ (verifyAux ops a b r i k).2 → j ≤ m := by
  intro k
  induction k with
  | zero =>
    intro i m act exp h
    cases h
  | succ k ih =>
    intro i m act exp h j hj
    rw [verifyAux_succ_eq] at h hj
    by_cases hc : mismatchAt ops a b r i = true
    · rw [if_pos hc] at h hj
      injection h with h1 h2 h3
      simp only [List.mem_singleton] at hj
      injection hj with hj1
      omega
    · rw [if_neg hc] at h hj
      simp only [List.mem_cons] at hj
      rcases hj with hj | hj
      · injection hj with hj1
        have := (verifyAux_mismatch_iff ops a b r m act exp k (i + 1)).mp h
        omega
      · exact ih (i + 1) m act exp h j hj

/-- C2: the verifier reports a mismatch at index i exactly when i is the
first index in scan order whose recomputed error exceeds the tolerance,
reporting the GPU value and the CPU-recomputed expected value, and it
examines no index past the first mismatch; if no index mismatches it
reports overall success. -/
theorem C2_verify_first_mismatch {F : Type} (ops : FloatOps F) (a b r : Nat → F) (n : Nat) :
    ((verify_results ops a b r n).1 = VerifyResult.success ↔
      ∀ i, i < n → mismatchAt ops a b r i = false) ∧
    (∀ i act exp,
      (verify_results ops a b r n).1 = VerifyResult.mismatch i act exp ↔
        (i < n ∧ mismatchAt ops a b r i = true ∧
         (∀ j, j < i → mismatchAt ops a b r j = false) ∧
         act = r i ∧ exp = ops.add (a i) (b i))) ∧
    (∀ i act exp,
      (verify_results ops a b r n).1 = VerifyResult.mismatch i act exp →
        ∀ j, ComputeEvent.readOutput j ∈ (verify_results ops a b r n).2 → j ≤ i) := by
  refine ⟨?_, ?_, ?_⟩
  · unfold verify_results
    rw [verifyAux_success_iff]
    constructor
    · intro h j hj
      exact h j (Nat.zero_le j) (by omega)
    · intro h j _ hj
      exact h j (by omega)
  · intro i act exp
    unfold verify_results
    rw [verifyAux_mismatch_iff]
    constructor
    · rintro ⟨_, h2, h3, h4, h5, h6⟩
      exact ⟨by omega, h3, fun j hj => h4 j (Nat.zero_le j) hj, h5, h6⟩
    · rintro ⟨h1, h2, h3, h4, h5⟩
      exact ⟨Nat.zero_le i, by omega, h2, fun j _ hj => h3 j hj, h4, h5⟩
  · intro i act exp h j hj
    exact verifyAux_stop ops a b r n 0 i act exp h j hj

/-- Witness for C2: inputs are all zero, the GPU result is wrong at
index 1 only, and the verifier reports the mismatch at index 1 with
actual 1 and expected 0. -/
theorem C2_verify_first_mismatch_witness :
    (verify_results natOps (fun _ => 0) (fun _ => 0)
        (fun i => if i = 1 then 1 else 0) 3).1 =
      VerifyResult.mismatch 1 1 0 :=
  ((C2_verify_first_mismatch natOps (fun _ => 0) (fun _ => 0)
      (fun i => if i = 1 then 1 else 0) 3).2.1 1 1 0).mpr (by decide)

/-- C5: in the compute program the command buffer is committed exactly
once; the unconditional blocking wait is recorded exactly once; and
every CPU read of the output buffer occurs strictly after the wait in
the trace. -/
theorem C5_commit_once_wait_before_readback {F : Type} (ops : FloatOps F)
    (a b r : Nat → F) (n m : Nat) :
    (computeMain ops a b r n m).trace.count ComputeEvent.commit = 1 ∧
    (computeMain ops a b r n m).trace.count ComputeEvent.waitUntilCompleted = 1 ∧
    (∀ i j k,
      (computeMain ops a b r n m).trace.get? i = some ComputeEvent.waitUntilCompleted →
      (computeMain ops a b r n m).trace.get? j = some (ComputeEvent.readOutput k) →
      i < j) := by
  have hV : ∀ e ∈ (verify_results ops a b r n).2, ∃ j, e = ComputeEvent.readOutput j :=
    fun e he => verifyAux_reads_only ops a b r n 0 e he
  have hT : (computeMain ops a b r n m).trace =
      [ComputeEvent.setComputePipelineState, ComputeEvent.setBuffer 0,
       ComputeEvent.setBuffer 1, ComputeEvent.setBuffer 2,
       ComputeEvent.dispatchThreads n 1 1 (threadgroupWidth m n) 1 1,
       ComputeEvent.endEncoding, ComputeEvent.commit,
       ComputeEvent.waitUntilCompleted] ++ (verify_results ops a b r n).2 := rfl
  refine ⟨?_, ?_, ?_⟩
  · rw [hT, List.count_append]
    have h0 : (verify_results ops a b r n).2.count ComputeEvent.commit = 0 := by
      rw [List.count_eq_zero]
      intro hmem
      rcases hV _ hmem with ⟨j, hj⟩
      cases hj
    rw [h0]
    rfl
  · rw [hT, List.count_append]
    have h0 : (verify_results ops a b r n).2.count ComputeEvent.waitUntilCompleted = 0 := by
      rw [List.count_eq_zero]
      intro hmem
      rcases hV _ hmem with ⟨j, hj⟩
      cases hj
    rw [h0]
    rfl
  · intro i j k hi hj
    rw [hT] at hi hj
    have hj8 : 8 ≤ j := by
      by_contra hlt
      push_neg at hlt
      rw [List.get?_append (by simpa using hlt)] at hj
      interval_cases j <;> simp at hj
    have hi8 : i < 8 := by
      by_contra hge
      push_neg at hge
      rw [List.get?_append_right (by simpa using hge)] at hi
      have hmem := List.get?_mem hi
      rcases hV _ hmem with ⟨j2, hj2⟩
      cases hj2
    omega

/-- Witness for C5: with all-zero inputs of length 1, the wait sits at
trace position 7, the single output read at position 8, and the theorem
yields 7 < 8. -/
theorem C5_commit_once_wait_before_readback_witness :
    (computeMain natOps (fun _ => 0) (fun _ => 0) (fun _ => 0) 1 4).trace.get? 7 =
        some ComputeEvent.waitUntilCompleted ∧
    (computeMain natOps (fun _ => 0) (fun _ => 0) (fun _ => 0) 1 4).trace.get? 8 =
        some (ComputeEvent.readOutput 0) ∧
    7 < 8 :=
  ⟨rfl, rfl,
   (C5_commit_once_wait_before_readback natOps (fun _ => 0) (fun _ => 0)
      (fun _ => 0) 1 4).2.2 7 8 0 rfl rfl⟩

/-! ### Lemmas about the render loop -/

/-- render never changes the vertex buffer. -/
theorem render_keeps_vertex_buffer (s : MetalState) (d : Option Drawable) :
    ((s.render d).1).vertex_buffer = s.vertex_buffer := by
  cases d <;> simp [MetalState.render, MetalState.update_viewport_buffer]

/-- After a window event on an initialized app, the Metal state is still
present and its vertex buffer is unchanged. -/
theorem window_event_keeps_vertex_buffer (app : App) (x : Bool) (e : WEvent)
    (d : Option Drawable) (ms : MetalState) (h : app.metal_state = some ms) :
    ∃ ms2, (app.window_event x e d).1.metal_state = some ms2 ∧
      ms2.vertex_buffer = ms.vertex_buffer := by
  unfold App.window_event
  rw [h]
  cases e with
  | closeRequested => exact ⟨ms, h, rfl⟩
  | keyboardInput key =>
    cases key with
    | escape => exact ⟨ms, h, rfl⟩
    | otherKey => exact ⟨ms, h, rfl⟩
  | redrawRequested =>
    refine ⟨_, rfl, ?_⟩
    exact render_keeps_vertex_buffer ms d
  | otherEvent => exact ⟨ms, h, rfl⟩

/-- Once the event loop has been asked to terminate, no further event is
delivered: the loop returns with the app unchanged and no render
activity. -/
theorem runEvents_after_exit (app : App) (evs : List (WEvent × Option Drawable)) :
    runEvents app true evs = ((app, true), []) := by
  cases evs <;> simp [runEvents]

/-- Along any run of the event loop, the vertex buffer of the Metal
state is never modified. -/
theorem runEvents_keeps_vertex_buffer (evs : List (WEvent × Option Drawable)) :
    ∀ (app : App) (x : Bool) (ms ms2 : MetalState),
      app.metal_state = some ms →
      (runEvents app x evs).1.1.metal_state = some ms2 →
      ms2.vertex_buffer = ms.vertex_buffer := by
  induction evs with
  | nil =>
    intro app x ms ms2 h h2
    simp only [runEvents] at h2
    rw [h] at h2
    injection h2 with h3
    rw [← h3]
  | cons ev rest ih =>
    intro app x ms ms2 h h2
    cases x with
    | true =>
      rw [runEvents_after_exit] at h2
      have h3 : app.metal_state = some ms2 := h2
      rw [h] at h3
      injection h3 with h4
      rw [← h4]
    | false =>
      simp only [runEvents, Bool.false_eq_true, if_false] at h2
      obtain ⟨msm, hm1, hm2⟩ :=
        window_event_keeps_vertex_buffer app false ev.1 ev.2 ms h
      have := ih (app.window_event false ev.1 ev.2).1
        (app.window_event false ev.1 ev.2).2.1 msm ms2 hm1 h2
      rw [this, hm2]

/-- C7: every frame draws exactly one primitive, a triangle of exactly
3 vertices starting at vertex 0, with the vertex buffer bound at slot 0
before the draw; the vertex buffer is populated at startup from the
three static records, and neither render nor any sequence of window
events ever changes it afterwards. -/
theorem C7_three_static_vertices_per_frame :
    (∀ p u, (MetalState.new p u).vertex_buffer = triangle_vertices) ∧
    triangle_vertices.length = 3 ∧
    (∀ (s : MetalState) (d : Drawable),
      ((s.render (some d)).2).count (RenderEvent.drawPrimitives PrimitiveType.triangle 0 3) = 1) ∧
    (∀ (s : MetalState) (d : Drawable) (e : RenderEvent), e ∈ (s.render (some d)).2 →
      (∃ pr vs vc, e = RenderEvent.drawPrimitives pr vs vc) →
      e = RenderEvent.drawPrimitives PrimitiveType.triangle 0 3) ∧
    (∀ (s : MetalState) (d : Drawable), ∃ i j, i < j ∧
      ((s.render (some d)).2).get? i =
        some (RenderEvent.setVertexBuffer AAPL_VERTEX_INPUT_INDEX_VERTICES BufRef.vertexBuf) ∧
      ((s.render (some d)).2).get? j =
        some (RenderEvent.drawPrimitives PrimitiveType.triangle 0 3)) ∧
    (∀ (s : MetalState) (d : Option Drawable), ((s.render d).1).vertex_buffer = s.vertex_buffer) ∧
    (∀ (evs : List (WEvent × Option Drawable)) (app : App) (x : Bool) (ms ms2 : MetalState),
      app.metal_state = some ms →
      (runEvents app x evs).1.1.metal_state = some ms2 →
      ms2.vertex_buffer = ms.vertex_buffer) := by
  refine ⟨fun p u => rfl, rfl, fun s d => rfl, ?_, ?_, render_keeps_vertex_buffer, ?_⟩
  · intro s d e he hdraw
    obtain ⟨pr, vs, vc, rfl⟩ := hdraw
    simp only [MetalState.render, List.mem_cons, List.not_mem_nil, or_false] at he
    rcases he with h | h | h | h | h | h | h | h | h | h <;> cases h <;> rfl
  · intro s d
    exact ⟨4, 6, by omega, rfl, rfl⟩
  · intro evs app x ms ms2 h h2
    exact runEvents_keeps_vertex_buffer evs app x ms ms2 h h2

/-- Witness for C7: after one delivered redraw with an 800 by 600
drawable, the Metal state still holds exactly the three static
vertices. -/
theorem C7_three_static_vertices_per_frame_witness :
    ({ pipeline_state := 0, vertex_buffer := triangle_vertices,
       viewport_buffer := (800, 600), windowRedrawRequests := 1 } : MetalState).vertex_buffer =
      (MetalState.new 0 (0, 0)).vertex_buffer :=
  C7_three_static_vertices_per_frame.2.2.2.2.2.2
    [(WEvent.redrawRequested, some { width := 800, height := 600 })]
    { window := some 0, metal_state := some (MetalState.new 0 (0, 0)) }
    false (MetalState.new 0 (0, 0))
    { pipeline_state := 0, vertex_buffer := triangle_vertices,
      viewport_buffer := (800, 600), windowRedrawRequests := 1 }
    rfl rfl

/-- C8: on an initialized app, a delivered close-requested event and a
delivered escape-key event both set the event-loop termination flag;
no other window event does; and once the flag is set the loop delivers
no further events, so no further redraw handling is invoked. -/
theorem C8_close_and_escape_terminate (app : App) (ms : MetalState) (x : Bool)
    (d : Option Drawable) (h : app.metal_state = some ms) :
    (app.window_event x WEvent.closeRequested d).2.1 = true ∧
    (app.window_event x (WEvent.keyboardInput Key.escape) d).2.1 = true ∧
    (∀ e, e ≠ WEvent.closeRequested → e ≠ WEvent.keyboardInput Key.escape →
      (app.window_event false e d).2.1 = false) ∧
    (∀ (app2 : App) (evs : List (WEvent × Option Drawable)),
      runEvents app2 true evs = ((app2, true), [])) := by
  refine ⟨?_, ?_, ?_, fun app2 evs => runEvents_after_exit app2 evs⟩
  · unfold App.window_event
    rw [h]
  · unfold App.window_event
    rw [h]
  · intro e h1 h2
    unfold App.window_event
    rw [h]
    cases e with
    | closeRequested => exact absurd rfl h1
    | keyboardInput key =>
      cases key with
      | escape => exact absurd rfl h2
      | otherKey => rfl
    | redrawRequested => rfl
    | otherEvent => rfl

/-- Witness for C8: a close-requested event on a freshly initialized app
sets the termination flag. -/
theorem C8_close_and_escape_terminate_witness :
    (App.window_event { window := some 0, metal_state := some (MetalState.new 0 (0, 0)) }
      false WEvent.closeRequested none).2.1 = true :=
  (C8_close_and_escape_terminate
    { window := some 0, metal_state := some (MetalState.new 0 (0, 0)) }
    (MetalState.new 0 (0, 0)) false none rfl).1

end GpuMisc
